import Mathlib

/-!
Shallow embedding of the `supervisory-procedures` policy engine
(Python sources under `src/supervisory_procedures/core/`, plus the
activity-dispatch example and the shared `validate_activity` script),
together with theorems settling the specification claims about it.

Modelling conventions:
* Python dicts parsed from YAML become Lean structures; a key that the
  source reads with `.get` (may be absent) becomes an `Option` field.
* Python exceptions become `Except` results.
* Functions are kept total exactly where the source catches every
  exception its callees can raise; each such point is noted in place.
-/

/-! ## Python-style string helpers -/

/-- Python truthiness of an optional string value (`None` and `""` are falsy). -/
def truthyStr : Option String → Bool
  | none => false
  | some s => !(s == "")

/-- Python truthiness of an optional integer value (`None` and `0` are falsy). -/
def truthyNat : Option Nat → Bool
  | none => false
  | some n => !(n == 0)

/-! ## Data model (dict shapes read by the core modules) -/

/-- One entry of `approved_activities`: the source indexes `a["id"]` and
`a["description"]` directly, so both fields are mandatory. -/
structure ApprovedActivity where
  id : String
  description : String
deriving DecidableEq, Repr

/-- One entry of `workflow.steps`; all keys are read with `.get` in the core. -/
structure WorkflowStep where
  id : Option String
  activity : Option String
  control_point : Option String
deriving DecidableEq, Repr

/-- One entry of `control_points`; the source indexes `cp["id"]` directly and
reads every other key with `.get`. -/
structure ControlPoint where
  id : String
  name : Option String
  description : Option String
  classification : Option String
  activation : Option String
  trigger : Option String
  who_reviews : Option String
  sla_hours : Option Nat
  escalation_contact : Option String
deriving DecidableEq, Repr

/-- The `metadata.supervisor` block (keys read with `.get`). -/
structure Supervisor where
  name : Option String
  role : Option String
deriving DecidableEq, Repr

/-- The `metadata` block of a skill document (keys read with `.get`). -/
structure Metadata where
  id : Option String
  name : Option String
  status : Option String
  version : Option String
  business_area : Option String
  authorised_agents : Option (List String)
  approved_at : Option String
  approved_by : Option String
  supervisor : Option Supervisor
deriving DecidableEq, Repr

/-- The `context` block of a skill document. -/
structure Context where
  description : Option String
  risk_classification : Option String
  applicable_regulations : Option (List String)
deriving DecidableEq, Repr

/-- The `constraints` block of a skill document. -/
structure Constraints where
  unacceptable_actions : Option (List String)
deriving DecidableEq, Repr

/-- The `workflow` block of a skill document. -/
structure Workflow where
  steps : Option (List WorkflowStep)
deriving DecidableEq, Repr

/-- A parsed skill document (top-level YAML mapping); every top-level key is
read with `.get` somewhere in the core, so all fields are optional. -/
structure SkillData where
  metadata : Option Metadata
  context : Option Context
  constraints : Option Constraints
  approved_activities : Option (List ApprovedActivity)
  control_points : Option (List ControlPoint)
  workflow : Option Workflow
deriving DecidableEq, Repr

/-- Shorthand for `data.get("workflow", {}).get("steps", [])`, used by the
validator, the renderer and the validate-activity script. -/
def workflowSteps (data : SkillData) : List WorkflowStep :=
  ((data.workflow).bind Workflow.steps).getD []

/-! ## `core/access_control.py` -/

/-- The wildcard agent sentinel (`_WILDCARD = "*"`). -/
def _WILDCARD : String := "*"

/-- The error taxonomy of `core/access_control.py`: `SkillNotFoundError`,
`SkillNotApprovedError` and `AgentNotAuthorisedError`, each carrying the
context its Python constructor stores. -/
inductive AccessError where
  | SkillNotFoundError (skill_id : String)
  | SkillNotApprovedError (skill_id : String) (status : String)
  | AgentNotAuthorisedError (agent_id : String) (skill_id : String)
deriving DecidableEq, Repr

/-- The derived state of `AuthorisedAgentsGuard` after `__init__`. -/
structure AuthorisedAgentsGuard where
  skill_id : String
  status : String
  authorised_agents : List String
deriving DecidableEq, Repr

/-- `AuthorisedAgentsGuard.__init__`: reads `metadata` with default `{}`,
then `id` (default `"<unknown>"`), `status` (default `"draft"`) and
`authorised_agents` (default `[]`), all via `.get`. -/
def AuthorisedAgentsGuard.ofSkillData (skill_data : SkillData) : AuthorisedAgentsGuard :=
  ⟨((skill_data.metadata).bind Metadata.id).getD "<unknown>",
   ((skill_data.metadata).bind Metadata.status).getD "draft",
   ((skill_data.metadata).bind Metadata.authorised_agents).getD []⟩

/-- `AuthorisedAgentsGuard.check`: layer 1 rejects any non-approved status,
layer 2 rejects an agent that is neither listed nor covered by the wildcard. -/
def AuthorisedAgentsGuard.check (g : AuthorisedAgentsGuard) (agent_id : String) :
    Except AccessError Unit :=
  if !(g.status == "approved") then
    .error (.SkillNotApprovedError g.skill_id g.status)
  else if !(g.authorised_agents.contains _WILDCARD) && !(g.authorised_agents.contains agent_id) then
    .error (.AgentNotAuthorisedError agent_id g.skill_id)
  else
    .ok ()

/-- `AuthorisedAgentsGuard.is_permitted`: `check` wrapped in a
`try/except PermissionError` returning a boolean. -/
def AuthorisedAgentsGuard.is_permitted (g : AuthorisedAgentsGuard) (agent_id : String) : Bool :=
  match g.check agent_id with
  | .ok _ => true
  | .error _ => false

/-- Modelled from the spec: `check_access` is imported and called by
`SkillRegistry.get_skill` but its definition is absent from the source tree
(only the `AuthorisedAgentsGuard` it would wrap is present).  Spec section 4.2
specifies `checkAccess(document, agentId)` as the status gate followed by the
allowlist gate — exactly `AuthorisedAgentsGuard(...).check(agent_id)`. -/
def check_access (skill_data : SkillData) (agent_id : String) : Except AccessError Unit :=
  (AuthorisedAgentsGuard.ofSkillData skill_data).check agent_id

/-! ## `core/validator.py` — structural tier

The structural schema itself is an external collaborator (a JSON Schema file
loaded at process start, not part of the core sources), so the definitions
below are parameterised by `iter_errors`, the list of violations the
`jsonschema` validator reports for a document. -/

/-- One `jsonschema.ValidationError`: its `absolute_path` (already rendered
to strings, as the source does with `str(p)`) and its `message`. -/
structure JsonSchemaError where
  path : List String
  message : String
deriving DecidableEq, Repr

/-- The sort key comparison `lambda e: list(e.path)`: Python list comparison
is lexicographic on the elements. -/
def pathLe : List String → List String → Bool
  | [], _ => true
  | _ :: _, [] => false
  | x :: xs, y :: ys => if x < y then true else if x = y then pathLe xs ys else false

/-- The ordering `sorted(validator.iter_errors(data), key=lambda e: list(e.path))`
sorts by. -/
def errLe (e₁ e₂ : JsonSchemaError) : Prop := pathLe e₁.path e₂.path = true

instance : DecidableRel errLe :=
  fun e₁ e₂ => inferInstanceAs (Decidable (pathLe e₁.path e₂.path = true))

/-- `_format_jsonschema_error`: `[<path joined by " -> ">] <message>`, with
`root` standing for an empty path. -/
def _format_jsonschema_error (error : JsonSchemaError) : String :=
  let path := if error.path.isEmpty then "root" else String.intercalate " -> " error.path
  "[" ++ path ++ "] " ++ error.message

/-! ## `core/registry.py` -/

/-- Lookup in a Python dict modelled as an insertion-ordered association list. -/
def dictLookup {α : Type} : List (String × α) → String → Option α
  | [], _ => none
  | (k, v) :: rest, key => if k = key then some v else dictLookup rest key

/-- Python dict assignment `d[k] = v`: overwrite in place, else append. -/
def dictInsert {α : Type} : List (String × α) → String → α → List (String × α)
  | [], key, v => [(key, v)]
  | (k, w) :: rest, key, v =>
    if k = key then (key, v) :: rest else (k, w) :: dictInsert rest key v

/-- The registry cache (`self._cache`): skill id to parsed document. -/
def Cache : Type := List (String × SkillData)

/-- A skill file as seen by the loader: either `load_yaml` raises `ValueError`
(YAML parse error or non-mapping top level), or it yields a parsed document. -/
inductive FileContent where
  | parseError
  | parsed (data : SkillData)
deriving DecidableEq, Repr

/-- The loaded registry: its cache after `load()` completed. -/
structure SkillRegistry where
  cache : List (String × SkillData)
deriving DecidableEq, Repr

/-- `SkillRegistry._load_skill_file`, parameterised by the external JSON
Schema through `iter_errors` (the structural violations the
`jsonschema.Draft202012Validator` reports for a document).  Every exception
the body can raise is caught by the source (`ValidationError` from
`validate_skill`, `KeyError`/`ValueError` from `load_yaml` and
`data["metadata"]["id"]`), so each failure leaves the cache unchanged.
Non-strict warning collection inside `validate_skill` raises nothing the
loader does not catch, and its result is discarded here. -/
def _load_skill_file (iter_errors : SkillData → List JsonSchemaError) (cache : List (String × SkillData))
    (file : FileContent) : List (String × SkillData) :=
  match file with
  | .parseError => cache
  | .parsed data =>
    if !(iter_errors data).isEmpty then cache
    else
      match (data.metadata).bind Metadata.id with
      | none => cache
      | some skill_id => dictInsert cache skill_id data

/-- `SkillRegistry.load`: fold `_load_skill_file` over the (sorted) document
store, starting from a cleared cache.  The fold is total: one bad document
never raises and never stops the remaining documents from loading. -/
def SkillRegistry.load (iter_errors : SkillData → List JsonSchemaError)
    (store : List FileContent) : SkillRegistry :=
  ⟨store.foldl (_load_skill_file iter_errors) []⟩

/-- `SkillRegistry.get_skill`: not-found check, then `check_access` only when
an `agent_id` was supplied. -/
def SkillRegistry.get_skill (reg : SkillRegistry) (skill_id : String)
    (agent_id : Option String) : Except AccessError SkillData :=
  match dictLookup reg.cache skill_id with
  | none => .error (.SkillNotFoundError skill_id)
  | some skill_data =>
    match agent_id with
    | none => .ok skill_data
    | some a =>
      match check_access skill_data a with
      | .error e => .error e
      | .ok _ => .ok skill_data

/-- `SkillRegistry.__contains__`. -/
def SkillRegistry.containsSkill (reg : SkillRegistry) (skill_id : String) : Bool :=
  (dictLookup reg.cache skill_id).isSome

/-! ## `core/validator.py` — warning tier and `validate_skill` -/

/-- The wildcard sentinel of the validator (`_WILDCARD_AGENT = "*"`). -/
def _WILDCARD_AGENT : String := "*"

/-- A `ValidationWarning`; only its `message` is data the claims touch (the
`path` the Python class also stores is the file path of the document). -/
structure ValidationWarning where
  message : String
deriving DecidableEq, Repr

/-- A `ValidationError`; carries the collected violation messages
(`self.errors`). -/
structure ValidationError where
  errors : List String
deriving DecidableEq, Repr

/-- `_step_id`: `step.get("id") or step.get("activity", "?")` — Python `or`
falls through on a missing or empty `id`. -/
def _step_id (step : WorkflowStep) : String :=
  match step.id with
  | some s => if s = "" then (step.activity).getD "?" else s
  | none => (step.activity).getD "?"

/-- The cross-reference check body of `_collect_warnings` for one workflow
step: warn when the step names a (truthy) activity absent from
`approved_activities`. -/
def stepActivityWarning (approved_ids : List String) (step : WorkflowStep) :
    Option ValidationWarning :=
  let activity := (step.activity).getD ""
  if activity = "" then none
  else if approved_ids.contains activity then none
  else some ⟨"Workflow step \x27" ++ _step_id step ++ "\x27: activity \x27" ++ activity
      ++ "\x27 not found in approved_activities"⟩

/-- `_collect_warnings`.  The freshness and artifact-consistency checks read
the file system next to a `skill.yml`; they are external input here, passed
in as `freshness` and appended exactly when the validated file is a
`skill.yml` (the `path.name == "skill.yml"` test). -/
def _collect_warnings (isSkillYml : Bool) (freshness : List ValidationWarning)
    (data : SkillData) : List ValidationWarning :=
  let meta := data.metadata
  let agents := (meta.bind Metadata.authorised_agents).getD []
  let wildcardW : List ValidationWarning :=
    if agents.contains _WILDCARD_AGENT then
      [⟨"authorised_agents contains \x27*\x27 — all agents are permitted. Consider restricting to named agent IDs."⟩]
    else []
  let status := (meta.bind Metadata.status).getD ""
  let approvedW : List ValidationWarning :=
    if status = "approved" then
      (if !truthyStr (meta.bind Metadata.approved_at) then
        [⟨"status is \x27approved\x27 but approved_at is null"⟩] else []) ++
      (if !truthyStr (meta.bind Metadata.approved_by) then
        [⟨"status is \x27approved\x27 but approved_by is null"⟩] else [])
    else []
  let approved_ids := ((data.approved_activities).getD []).map ApprovedActivity.id
  let stepW := (workflowSteps data).filterMap (stepActivityWarning approved_ids)
  let referenced_cps := (workflowSteps data).filterMap (fun step =>
    if truthyStr step.control_point then step.control_point else none)
  let cpW := ((data.control_points).getD []).filterMap (fun cp =>
    if cp.activation = some "step" && !(referenced_cps.contains cp.id) then
      some ⟨"Control point \x27" ++ cp.id
        ++ "\x27 has activation: step but is not referenced by any workflow step via control_point"⟩
    else none)
  wildcardW ++ approvedW ++ stepW ++ cpW ++ (if isSkillYml then freshness else [])

/-- `validate_skill` on already-parsed data: sort the structural violations by
path and raise them all at once; only when there are none, collect the
cross-referential warnings, which strict mode promotes to an error. -/
def validate_skill (iter_errors : SkillData → List JsonSchemaError) (strict : Bool)
    (isSkillYml : Bool) (freshness : List ValidationWarning) (data : SkillData) :
    Except ValidationError (List ValidationWarning) :=
  let raw_errors := List.insertionSort errLe (iter_errors data)
  if raw_errors.isEmpty then
    let warnings := _collect_warnings isSkillYml freshness data
    if strict && !warnings.isEmpty then
      .error ⟨warnings.map ValidationWarning.message⟩
    else
      .ok warnings
  else
    .error ⟨raw_errors.map _format_jsonschema_error⟩

/-! ## `examples/loan_application_activity_dispatch.py` — `WorkflowRunner`

The example drives a skill document of the dispatch shape: the allowlist is
the plain string list `skill_data["scope"]["approved_activities"]`.  Only the
state `register` touches is modelled; `F` is the type of the registered
activity implementations. -/

structure WorkflowRunner (F : Type) where
  skill_id : String
  approved : List String
  workflow_steps : List WorkflowStep
  activity_registry : List (String × F)

/-- `WorkflowRunner.register`: refuse (Python `ValueError`, modelled as the
error message) any activity outside the skill allowlist, before it can ever
be called; otherwise record the implementation. -/
def WorkflowRunner.register {F : Type} (r : WorkflowRunner F) (activity : String) (fn : F) :
    Except String (WorkflowRunner F) :=
  if !(r.approved.contains activity) then
    .error ("Cannot register \x27" ++ activity ++ "\x27: not in approved_activities for skill \x27"
      ++ r.skill_id ++ "\x27")
  else
    .ok ⟨r.skill_id, r.approved, r.workflow_steps, dictInsert r.activity_registry activity fn⟩

/-! ## `registry/shared/validate-activity/scripts/validate_activity.py` -/

/-- The ids of `workflow.steps`, read with the mandatory index `s["id"]`:
`none` models the `KeyError` a step without an `id` key raises. -/
def workflowStepIds : List WorkflowStep → Option (List String)
  | [] => some []
  | s :: rest =>
    match s.id with
    | none => none
    | some i => (workflowStepIds rest).map (fun l => i :: l)

/-- `validate_activity.py main` on a parsed skill dict: report
`(allowed, exit_code)`; a step id is allowed iff it appears among the
workflow step ids.  `none` models the uncaught `KeyError` on a step without
an `id`; the unreadable-file branch is outside this embedding. -/
def validate_activity_main (skill : SkillData) (step : String) : Option (Bool × Nat) :=
  match workflowStepIds (workflowSteps skill) with
  | none => none
  | some valid_step_ids =>
    if valid_step_ids.contains step then some (true, 0) else some (false, 1)

/-! ## `core/renderer.py` -/

/-- `_SHARED = "registry/shared"`. -/
def _SHARED : String := "registry/shared"

/-- `_MAX_DESCRIPTION = 1024`. -/
def _MAX_DESCRIPTION : Nat := 1024

/-- Python `" ".join(text.split())`: collapse all whitespace runs. -/
def _inline (text : String) : String :=
  String.intercalate " " ((text.split Char.isWhitespace).filter (fun w => w ≠ ""))

/-- Python `str.replace` / `re.sub` for a single-character pattern. -/
def charReplace (s : String) (old new : Char) : String :=
  ⟨s.data.map (fun c => if c = old then new else c)⟩

/-- Helper for Python `str.title()`: uppercase a letter not preceded by a
letter, lowercase the rest. -/
def pyTitleAux : Bool → List Char → List Char
  | _, [] => []
  | prevAlpha, c :: cs =>
    (if prevAlpha then c.toLower else c.toUpper) :: pyTitleAux c.isAlpha cs

/-- Python `str.title()`. -/
def pyTitle (s : String) : String := ⟨pyTitleAux false s.data⟩

/-- Python `s[:k]` for a possibly negative bound `k` (a negative bound drops
that many characters from the end, clamped at the empty string). -/
def pySliceTo (s : String) (k : Int) : String :=
  if 0 ≤ k then ⟨s.data.take k.toNat⟩
  else ⟨s.data.take (s.data.length - (-k).toNat)⟩

/-- Python `str.rstrip()`. -/
def pyRstrip (s : String) : String :=
  ⟨(s.data.reverse.dropWhile Char.isWhitespace).reverse⟩

/-- `_skill_id` (renderer): `metadata.id` defaulted to `"unknown"`. -/
def _skill_id (skill_data : SkillData) : String :=
  ((skill_data.metadata).bind Metadata.id).getD "unknown"

/-- `_skill_yml_path`. -/
def _skill_yml_path (skill_data : SkillData) : String :=
  "registry/" ++ _skill_id skill_data ++ "/skill.yml"

/-- `_cp_index` followed by `.get`: a Python dict comprehension keyed by
`cp["id"]`, so a later duplicate id overwrites an earlier one. -/
def _cp_index_lookup (cps : List ControlPoint) (ref : String) : Option ControlPoint :=
  (cps.filter (fun cp => cp.id == ref)).getLast?

/-- `_cp_display_name`: explicit (truthy) `name`, else the title-cased id
with dashes replaced by spaces. -/
def _cp_display_name (cp : ControlPoint) : String :=
  if truthyStr cp.name then (cp.name).getD ""
  else pyTitle (charReplace cp.id (Char.ofNat 45) (Char.ofNat 32))

/-- `_checkpoint_gate_cmd`: the bash invocation block, one argument per line,
joined by ` \` + newline; optional arguments appear only when truthy. -/
def _checkpoint_gate_cmd (skill_id : String) (cp : ControlPoint) : String :=
  let args :=
    ["python " ++ _SHARED ++ "/checkpoint-gate/scripts/checkpoint_gate.py",
     "  --skill " ++ skill_id,
     "  --session ${CLAUDE_SESSION_ID}",
     "  --control-point " ++ cp.id,
     "  --classification " ++ (cp.classification).getD ""]
    ++ (if truthyStr cp.who_reviews then
          ["  --reviewer \"" ++ (cp.who_reviews).getD "" ++ "\""] else [])
    ++ (if truthyNat cp.sla_hours then
          ["  --sla-hours " ++ toString ((cp.sla_hours).getD 0)] else [])
    ++ (if truthyStr cp.escalation_contact then
          ["  --contact " ++ (cp.escalation_contact).getD ""] else [])
  String.intercalate " \\\n" args

/-- `_audit_log_cmd`. -/
def _audit_log_cmd (skill_id action : String) : String :=
  "python " ++ _SHARED ++ "/audit-logging/scripts/audit_log.py \\\n  --skill " ++ skill_id
    ++ " \\\n  --session ${CLAUDE_SESSION_ID} \\\n  --action " ++ action

/-- `_validate_activity_cmd`. -/
def _validate_activity_cmd (skill_yml_path step_id : String) : String :=
  "python " ++ _SHARED ++ "/validate-activity/scripts/validate_activity.py \\\n  --skill "
    ++ skill_yml_path ++ " \\\n  --step " ++ step_id

/-- `_halt_comment`: classification-specific trailing comment, `""` default. -/
def _halt_comment (classification : String) : String :=
  if classification = "vetoed" then
    "# Exit code 2 — halt all processing immediately."
  else if classification = "needs_approval" then
    "# PENDING — halt here and await explicit approval before continuing."
  else if classification = "review" then
    "# PENDING — halt here and await reviewer clearance before continuing."
  else if classification = "notify" then
    "# NOTIFY — human is informed; agent may continue."
  else ""

/-- `_effective_step_id`: identical to the validator's `_step_id`. -/
def _effective_step_id (step : WorkflowStep) : String :=
  _step_id step

/-- `_frontmatter`: YAML frontmatter with the capped description line. -/
def _frontmatter (skill_data : SkillData) : String :=
  let meta := skill_data.metadata
  let ctx := skill_data.context
  let name := (((meta.bind Metadata.id).getD "").splitOn "/").getLastD ""
  let raw_desc := _inline ((ctx.bind Context.description).getD "")
  let area := charReplace ((meta.bind Metadata.business_area).getD "")
    (Char.ofNat 95) (Char.ofNat 32)
  let skill_name := (meta.bind Metadata.name).getD ""
  let risk := (ctx.bind Context.risk_classification).getD ""
  let agents := String.intercalate ", " ((meta.bind Metadata.authorised_agents).getD [])
  let use_when := "Use when " ++ skill_name ++ " is needed for " ++ area ++ " operations."
  let suffix := " " ++ use_when ++ " Risk: " ++ risk ++ ". Authorised agents: " ++ agents ++ "."
  let raw_desc2 :=
    if _MAX_DESCRIPTION < raw_desc.length + suffix.length then
      pySliceTo raw_desc ((_MAX_DESCRIPTION : Int) - (suffix.length : Int) - 3) ++ "..."
    else raw_desc
  let description := raw_desc2 ++ suffix
  "---\nname: " ++ name ++ "\ndescription: \"" ++ description ++ "\"\n---\n"

/-- `_header`. -/
def _header (skill_data : SkillData) : String :=
  let meta := skill_data.metadata
  let ctx := skill_data.context
  let sup := meta.bind Metadata.supervisor
  let regs := (ctx.bind Context.applicable_regulations).getD []
  let reg_str := if regs.isEmpty then "None specified" else String.intercalate " | " regs
  "# " ++ (meta.bind Metadata.name).getD "" ++ "\n\n"
    ++ "> **Governed Skill** — Supervisor: " ++ (sup.bind Supervisor.name).getD ""
    ++ " (" ++ (sup.bind Supervisor.role).getD "" ++ ")\n"
    ++ "> Risk: **" ++ (ctx.bind Context.risk_classification).getD "" ++ "** | "
    ++ "Version: " ++ (meta.bind Metadata.version).getD "" ++ " | "
    ++ "Regulations: " ++ reg_str ++ "\n\n"
    ++ "*All steps, controls, and restrictions below are defined by your supervisor. "
    ++ "Follow this procedure exactly.*\n\n---"

/-- `_initialisation`. -/
def _initialisation (skill_data : SkillData) : String :=
  "## Initialisation\n\nBefore any other action, record that this skill has been invoked:\n\n```bash\n"
    ++ _audit_log_cmd (_skill_id skill_data) "skill_invoked" ++ "\n```\n\n---"

/-- `_approved_activities`: the allowlist table plus the validate command
template with the literal `<step-id>` placeholder. -/
def _approved_activities (skill_data : SkillData) : String :=
  let syml := _skill_yml_path skill_data
  let activities := (skill_data.approved_activities).getD []
  let validate_cmd := "python " ++ _SHARED
    ++ "/validate-activity/scripts/validate_activity.py \\\n  --skill " ++ syml
    ++ " \\\n  --step <step-id>"
  let rows := String.intercalate "\n"
    (activities.map (fun act => "| `" ++ act.id ++ "` | " ++ act.description ++ " |"))
  "## Approved Activities\n\nYou may **only** perform activities listed below. "
    ++ "Validate each step before executing:\n\n```bash\n" ++ validate_cmd ++ "\n```\n\n"
    ++ "If `\"allowed\": false` — halt immediately and log the attempt.\n\n"
    ++ "| Activity ID | Description |\n|-------------|-------------|\n" ++ rows ++ "\n\n---"

/-- `_unacceptable_actions`. -/
def _unacceptable_actions (skill_data : SkillData) : String :=
  let actions := ((skill_data.constraints).bind Constraints.unacceptable_actions).getD []
  if actions.isEmpty then ""
  else
    "## What You Must Never Do\n\n"
      ++ String.intercalate "\n" (actions.map (fun a => "- " ++ a)) ++ "\n\n---"

/-- `_vetoed_conditions`. -/
def _vetoed_conditions (skill_data : SkillData) : String :=
  let sid := _skill_id skill_data
  let vetoed := ((skill_data.control_points).getD []).filter
    (fun cp => cp.classification == some "vetoed")
  if vetoed.isEmpty then ""
  else
    let lines :=
      ["## Vetoed Conditions — Halt Immediately", "",
       "If any of these conditions arise, invoke the checkpoint immediately and halt. No human override is possible.",
       ""]
      ++ vetoed.flatMap (fun cp =>
        ["### " ++ cp.id ++ " — " ++ _cp_display_name cp, "", _inline ((cp.description).getD "")]
        ++ (if truthyStr cp.trigger then
              ["", "**Trigger:** " ++ _inline ((cp.trigger).getD "")] else [])
        ++ ["", "```bash\n" ++ _checkpoint_gate_cmd sid cp ++ "\n" ++ _halt_comment "vetoed"
              ++ "\n```", ""])
      ++ ["---"]
    String.intercalate "\n" lines

/-- The per-checkpoint metadata line plus bash block shared by the oversight
and condition-triggered sections. -/
def checkpointMetaLines (sid : String) (cp : ControlPoint) : String × String :=
  let classification := (cp.classification).getD ""
  let meta_parts :=
    ["Classification: **" ++ classification ++ "**"]
    ++ (if truthyStr cp.who_reviews then ["Reviewer: " ++ (cp.who_reviews).getD ""] else [])
    ++ (if truthyNat cp.sla_hours then ["SLA: " ++ toString ((cp.sla_hours).getD 0) ++ "h"] else [])
  let cmd := _checkpoint_gate_cmd sid cp
  let comment := _halt_comment classification
  let bash := if comment ≠ "" then "```bash\n" ++ cmd ++ "\n" ++ comment ++ "\n```"
    else "```bash\n" ++ cmd ++ "\n```"
  (String.intercalate " | " meta_parts, bash)

/-- `_oversight_checkpoints`: non-vetoed, non-auto control points with
`activation: step`. -/
def _oversight_checkpoints (skill_data : SkillData) : String :=
  let sid := _skill_id skill_data
  let checkpoints := ((skill_data.control_points).getD []).filter (fun cp =>
    !(cp.classification == some "vetoed") && !(cp.classification == some "auto")
      && cp.activation == some "step")
  if checkpoints.isEmpty then ""
  else
    let lines :=
      ["## Oversight Checkpoints", "",
       "These checkpoints are invoked at specific workflow steps (see Workflow section).", ""]
      ++ checkpoints.flatMap (fun cp =>
        let mb := checkpointMetaLines sid cp
        ["### " ++ cp.id ++ " — " ++ _cp_display_name cp, "", mb.1, "",
         _inline ((cp.description).getD ""), "", mb.2, ""])
      ++ ["---"]
    String.intercalate "\n" lines

/-- `_condition_triggered_controls`: non-vetoed, non-auto control points with
`activation: conditional`.  The source indexes `cp["trigger"]` directly; a
validated conditional control point always carries it, and a missing one is
rendered as the empty string here. -/
def _condition_triggered_controls (skill_data : SkillData) : String :=
  let sid := _skill_id skill_data
  let checkpoints := ((skill_data.control_points).getD []).filter (fun cp =>
    !(cp.classification == some "vetoed") && !(cp.classification == some "auto")
      && cp.activation == some "conditional")
  if checkpoints.isEmpty then ""
  else
    let lines :=
      ["## Condition-Triggered Controls", "",
       "These activate when their trigger condition is met during any workflow step.", ""]
      ++ checkpoints.flatMap (fun cp =>
        let mb := checkpointMetaLines sid cp
        ["### " ++ cp.id ++ " — " ++ _cp_display_name cp, "", mb.1, "",
         "**Trigger:** " ++ _inline ((cp.trigger).getD ""), "",
         _inline ((cp.description).getD ""), "", mb.2, ""])
      ++ ["---"]
    String.intercalate "\n" lines

/-- The activity description map `{a["id"]: a["description"]}` followed by
`.get(activity_id, activity_id)`; a later duplicate id overwrites. -/
def _activity_description (acts : List ApprovedActivity) (activity_id : String) : String :=
  match (acts.filter (fun a2 => a2.id == activity_id)).getLast? with
  | some a2 => a2.description
  | none => activity_id

/-- The per-step lines of `_workflow` (steps enumerated from 1). -/
def workflowStepLines (skill_data : SkillData) (i : Nat) (step : WorkflowStep) : List String :=
  let sid := _skill_id skill_data
  let syml := _skill_yml_path skill_data
  let step_id := _effective_step_id step
  let activity_id := (step.activity).getD ""
  let activity := _activity_description ((skill_data.approved_activities).getD []) activity_id
  let cp_ref := step.control_point
  let cp := if truthyStr cp_ref then
    _cp_index_lookup ((skill_data.control_points).getD []) ((cp_ref).getD "") else none
  ["### Step " ++ toString i ++ " — " ++ step_id, "",
   "**Activity:** " ++ activity, "",
   "```bash\n" ++ _validate_activity_cmd syml step_id ++ "\n\n" ++ _audit_log_cmd sid step_id
     ++ "\n```"]
  ++ (match cp with
      | none => []
      | some cpv =>
        let classification := (cpv.classification).getD ""
        let cmd := _checkpoint_gate_cmd sid cpv
        let comment := _halt_comment classification
        let bash := if comment ≠ "" then "```bash\n" ++ cmd ++ "\n" ++ comment ++ "\n```"
          else "```bash\n" ++ cmd ++ "\n```"
        let label :=
          if classification = "auto" then "auto — agent proceeds automatically"
          else if classification = "needs_approval" then "halt and await approval"
          else if classification = "review" then "halt and await review"
          else if classification = "notify" then "notify and continue"
          else classification
        ["", "Control point **" ++ (cp_ref).getD "" ++ "** (" ++ label ++ "):", "", bash])
  ++ [""]

/-- `_workflow`. -/
def _workflow (skill_data : SkillData) : String :=
  let steps := workflowSteps skill_data
  if steps.isEmpty then ""
  else
    let lines :=
      ["## Workflow", "",
       "Execute steps in this exact order. Do not skip, reorder, or add steps.", ""]
      ++ steps.enum.flatMap (fun p => workflowStepLines skill_data (p.1 + 1) p.2)
    String.intercalate "\n" lines

/-- `render_skill_md`: concatenate the non-empty sections in fixed order,
strip trailing whitespace, and terminate with a newline. -/
def render_skill_md (skill_data : SkillData) : String :=
  let sections :=
    [_frontmatter skill_data,
     _header skill_data,
     _initialisation skill_data,
     _approved_activities skill_data,
     _unacceptable_actions skill_data,
     _vetoed_conditions skill_data,
     _oversight_checkpoints skill_data,
     _condition_triggered_controls skill_data,
     _workflow skill_data]
  pyRstrip (String.intercalate "\n" (sections.filter (fun s => s ≠ ""))) ++ "\n"

/-! ## Concrete fixture documents (mirroring `src/tests/fixtures`) -/

/-- Build a `metadata` block carrying only the fields access control reads. -/
def mkMetadata (id status : Option String) (agents : Option (List String)) : Metadata :=
  ⟨id, none, status, none, none, agents, none, none, none⟩

/-- Build a document carrying only a `metadata` block. -/
def mkDoc (meta : Option Metadata) : SkillData :=
  ⟨meta, none, none, none, none, none⟩

/-- An approved document whose allowlist names exactly `agent-x`. -/
def approvedDoc : SkillData :=
  mkDoc (some (mkMetadata (some "test_area/test-skill") (some "approved") (some ["agent-x"])))

/-- A draft document whose allowlist is the wildcard. -/
def draftWildcardDoc : SkillData :=
  mkDoc (some (mkMetadata (some "test_area/draft-skill") (some "draft") (some ["*"])))

/-- A document with no `metadata` block at all. -/
def noMetadataDoc : SkillData := mkDoc none

/-- An approved document with no `authorised_agents` key. -/
def approvedNoAgentsDoc : SkillData :=
  mkDoc (some (mkMetadata (some "test_area/test-skill") (some "approved") none))

/-- A structurally valid draft document whose only workflow step references
activity `send-loan-offer`, absent from `approved_activities`. -/
def sendOfferDoc : SkillData :=
  ⟨some (mkMetadata (some "test_area/offer-skill") (some "draft") (some ["agent-x"])),
   none, none,
   some [⟨"check-eligibility", "Check the applicant eligibility"⟩],
   none,
   some ⟨some [⟨some "offer-step", some "send-loan-offer", none⟩]⟩⟩

/-- A document that the demo schema rejects. -/
def badDoc : SkillData :=
  mkDoc (some (mkMetadata (some "test_area/bad-skill") (some "approved") (some ["*"])))

/-- A three-file document store: one schema-invalid document, one valid one,
one file `load_yaml` cannot parse. -/
def demoStore : List FileContent :=
  [.parsed badDoc, .parsed approvedDoc, .parseError]

/-- A demo stand-in for the external structural schema: it rejects exactly
`badDoc`. -/
def demoIterErrors : SkillData → List JsonSchemaError :=
  fun d => if d = badDoc then [⟨["metadata", "id"], "is a required property"⟩] else []

/-- A demo stand-in for the external structural schema that reports two
violations on every document, listed in reverse path order. -/
def twoViolations : SkillData → List JsonSchemaError :=
  fun _ => [⟨["workflow"], "second violation"⟩, ⟨["metadata"], "first violation"⟩]

/-- A dispatch-shaped runner for a skill allowing exactly one activity, whose
workflow references the unapproved activity `send-offer`. -/
def demoRunner : WorkflowRunner Unit :=
  ⟨"retail_banking/loan-application-processing",
   ["Retrieve and parse submitted application documents"],
   [⟨some "send-offer", some "send-offer", none⟩],
   []⟩

/-! ## Claims about the access-control gate -/

/-- C2: for every document whose `metadata.status` is present but not
`"approved"` and every agent, `AuthorisedAgentsGuard.check` fails with
`SkillNotApprovedError` carrying the actual status — whatever
`authorised_agents` holds, wildcard included; in particular
`AgentNotAuthorisedError` is never raised for such a document. -/
theorem claim_C2_status_gate_dominates_allowlist (data : SkillData) (agent_id s : String)
    (hs : (data.metadata).bind Metadata.status = some s) (hne : s ≠ "approved") :
    (AuthorisedAgentsGuard.ofSkillData data).check agent_id =
      .error (.SkillNotApprovedError (((data.metadata).bind Metadata.id).getD "<unknown>") s) := by
  simp only [AuthorisedAgentsGuard.ofSkillData, AuthorisedAgentsGuard.check, hs, Option.getD_some]
  simp [hne]

/-- C2 witness: the draft wildcard document is rejected with `NotApproved`
for agent `any-agent`. -/
theorem claim_C2_status_gate_dominates_allowlist_witness :
    (AuthorisedAgentsGuard.ofSkillData draftWildcardDoc).check "any-agent" =
      .error (.SkillNotApprovedError "test_area/draft-skill" "draft") :=
  claim_C2_status_gate_dominates_allowlist draftWildcardDoc "any-agent" "draft" rfl (by decide)

/-- C3: for every document whose `metadata.status` is `"approved"` and every
agent, `check` succeeds iff the agent is listed in `authorised_agents` or the
wildcard is; otherwise it fails with `AgentNotAuthorisedError` carrying the
agent id and the document id. -/
theorem claim_C3_approved_allowlist_iff (data : SkillData) (agent_id : String)
    (hs : (data.metadata).bind Metadata.status = some "approved") :
    ((AuthorisedAgentsGuard.ofSkillData data).check agent_id = .ok () ↔
      agent_id ∈ (AuthorisedAgentsGuard.ofSkillData data).authorised_agents ∨
        _WILDCARD ∈ (AuthorisedAgentsGuard.ofSkillData data).authorised_agents)
    ∧ (agent_id ∉ (AuthorisedAgentsGuard.ofSkillData data).authorised_agents →
       _WILDCARD ∉ (AuthorisedAgentsGuard.ofSkillData data).authorised_agents →
        (AuthorisedAgentsGuard.ofSkillData data).check agent_id =
          .error (.AgentNotAuthorisedError agent_id (AuthorisedAgentsGuard.ofSkillData data).skill_id)) := by
  have hstat : (AuthorisedAgentsGuard.ofSkillData data).status = "approved" := by
    simp [AuthorisedAgentsGuard.ofSkillData, hs]
  constructor
  · unfold AuthorisedAgentsGuard.check
    rw [hstat]
    by_cases hw : _WILDCARD ∈ (AuthorisedAgentsGuard.ofSkillData data).authorised_agents
    · simp [hw]
    · by_cases ha : agent_id ∈ (AuthorisedAgentsGuard.ofSkillData data).authorised_agents
      · simp [hw, ha]
      · simp [hw, ha]
  · intro ha hw
    unfold AuthorisedAgentsGuard.check
    rw [hstat]
    simp [ha, hw]

/-- C3 witness: on the approved fixture, agent `agent-x` passes and the iff
instantiates to a true statement. -/
theorem claim_C3_approved_allowlist_iff_witness :
    (AuthorisedAgentsGuard.ofSkillData approvedDoc).check "agent-x" = .ok () :=
  (claim_C3_approved_allowlist_iff approvedDoc "agent-x" rfl).1.mpr (Or.inl (by decide))

/-- C10: the guard fails closed on missing fields.  With no `metadata` block,
or no `status` key, every agent is rejected with `SkillNotApprovedError` and
the defaulted status `draft`; with status `approved` but no
`authorised_agents` key, every agent is rejected with
`AgentNotAuthorisedError`.  (The Lean embedding is a total function, so no
other outcome — no `KeyError` analogue — is possible.) -/
theorem claim_C10_guard_fails_closed (data : SkillData) (agent_id : String) :
    (data.metadata = none →
      (AuthorisedAgentsGuard.ofSkillData data).check agent_id =
        .error (.SkillNotApprovedError "<unknown>" "draft"))
    ∧ (∀ m, data.metadata = some m → m.status = none →
      (AuthorisedAgentsGuard.ofSkillData data).check agent_id =
        .error (.SkillNotApprovedError (m.id.getD "<unknown>") "draft"))
    ∧ (∀ m, data.metadata = some m → m.status = some "approved" → m.authorised_agents = none →
      (AuthorisedAgentsGuard.ofSkillData data).check agent_id =
        .error (.AgentNotAuthorisedError agent_id (m.id.getD "<unknown>"))) := by
  refine ⟨fun h => ?_, fun m h hst => ?_, fun m h hst hag => ?_⟩
  · simp [AuthorisedAgentsGuard.ofSkillData, AuthorisedAgentsGuard.check, h]
  · simp [AuthorisedAgentsGuard.ofSkillData, AuthorisedAgentsGuard.check, h, hst]
  · simp [AuthorisedAgentsGuard.ofSkillData, AuthorisedAgentsGuard.check, h, hst, hag, _WILDCARD]

/-- C10 witness: a document without `metadata` is rejected as draft
`<unknown>`; an approved document without `authorised_agents` rejects agent
`agent-x`. -/
theorem claim_C10_guard_fails_closed_witness :
    (AuthorisedAgentsGuard.ofSkillData noMetadataDoc).check "agent-x" =
      .error (.SkillNotApprovedError "<unknown>" "draft")
    ∧ (AuthorisedAgentsGuard.ofSkillData approvedNoAgentsDoc).check "agent-x" =
      .error (.AgentNotAuthorisedError "agent-x" "test_area/test-skill") :=
  ⟨(claim_C10_guard_fails_closed noMetadataDoc "agent-x").1 rfl,
   (claim_C10_guard_fails_closed approvedNoAgentsDoc "agent-x").2.2
     (mkMetadata (some "test_area/test-skill") (some "approved") none) rfl rfl rfl⟩

/-! ## Claims about the registry lookup -/

/-- C9: `get_skill` with `agent_id` omitted returns the cached document
unconditionally — no status or allowlist check runs, so draft or deprecated
documents are returned too. -/
theorem claim_C9_get_skill_without_agent_skips_gate (reg : SkillRegistry)
    (skill_id : String) (data : SkillData)
    (h : dictLookup reg.cache skill_id = some data) :
    reg.get_skill skill_id none = .ok data := by
  simp [SkillRegistry.get_skill, h]

/-- C9 witness: a registry caching only the draft wildcard document serves it
without an agent id. -/
theorem claim_C9_get_skill_without_agent_skips_gate_witness :
    SkillRegistry.get_skill ⟨[("test_area/draft-skill", draftWildcardDoc)]⟩
      "test_area/draft-skill" none = .ok draftWildcardDoc :=
  claim_C9_get_skill_without_agent_skips_gate
    ⟨[("test_area/draft-skill", draftWildcardDoc)]⟩ "test_area/draft-skill"
    draftWildcardDoc (by decide)

/-- C1: `get_skill` with an `agent_id` applies the access-control gate to the
cached document: the document is returned when the gate passes, the
status gate failure surfaces as `SkillNotApprovedError`, and the allowlist
failure as `AgentNotAuthorisedError`. -/
theorem claim_C1_get_skill_applies_gate (reg : SkillRegistry)
    (skill_id agent_id : String) (data : SkillData)
    (h : dictLookup reg.cache skill_id = some data) :
    ((AuthorisedAgentsGuard.ofSkillData data).status = "approved" →
      (_WILDCARD ∈ (AuthorisedAgentsGuard.ofSkillData data).authorised_agents ∨
        agent_id ∈ (AuthorisedAgentsGuard.ofSkillData data).authorised_agents) →
      reg.get_skill skill_id (some agent_id) = .ok data)
    ∧ ((AuthorisedAgentsGuard.ofSkillData data).status ≠ "approved" →
      reg.get_skill skill_id (some agent_id) =
        .error (.SkillNotApprovedError (AuthorisedAgentsGuard.ofSkillData data).skill_id
          (AuthorisedAgentsGuard.ofSkillData data).status))
    ∧ ((AuthorisedAgentsGuard.ofSkillData data).status = "approved" →
      _WILDCARD ∉ (AuthorisedAgentsGuard.ofSkillData data).authorised_agents →
      agent_id ∉ (AuthorisedAgentsGuard.ofSkillData data).authorised_agents →
      reg.get_skill skill_id (some agent_id) =
        .error (.AgentNotAuthorisedError agent_id (AuthorisedAgentsGuard.ofSkillData data).skill_id)) := by
  refine ⟨fun hst hmem => ?_, fun hst => ?_, fun hst hw ha => ?_⟩
  · simp only [SkillRegistry.get_skill, h, check_access, AuthorisedAgentsGuard.check, hst]
    rcases hmem with hm | hm <;> simp [hm]
  · simp only [SkillRegistry.get_skill, h, check_access, AuthorisedAgentsGuard.check]
    simp [hst]
  · simp only [SkillRegistry.get_skill, h, check_access, AuthorisedAgentsGuard.check, hst]
    simp [hw, ha]

/-- C1 witness: a registry caching the approved fixture serves it to
`agent-x` and rejects `agent-y` with `NotAuthorised`. -/
theorem claim_C1_get_skill_applies_gate_witness :
    SkillRegistry.get_skill ⟨[("test_area/test-skill", approvedDoc)]⟩
      "test_area/test-skill" (some "agent-x") = .ok approvedDoc
    ∧ SkillRegistry.get_skill ⟨[("test_area/test-skill", approvedDoc)]⟩
      "test_area/test-skill" (some "agent-y") =
        .error (.AgentNotAuthorisedError "agent-y" "test_area/test-skill") :=
  ⟨(claim_C1_get_skill_applies_gate ⟨[("test_area/test-skill", approvedDoc)]⟩
      "test_area/test-skill" "agent-x" approvedDoc (by decide)).1 (by decide)
      (Or.inr (by decide)),
   (claim_C1_get_skill_applies_gate ⟨[("test_area/test-skill", approvedDoc)]⟩
      "test_area/test-skill" "agent-y" approvedDoc (by decide)).2.2 (by decide)
      (by decide) (by decide)⟩

/-! ## Order lemmas for the validator sort -/

/-- The lexicographic path comparison is total. -/
theorem pathLe_total (a b : List String) : pathLe a b = true ∨ pathLe b a = true := by
  induction a generalizing b with
  | nil => exact Or.inl rfl
  | cons x xs ih =>
    cases b with
    | nil => exact Or.inr rfl
    | cons y ys =>
      rcases lt_trichotomy x y with h | h | h
      · exact Or.inl (by simp [pathLe, h])
      · subst h
        rcases ih ys with h2 | h2
        · exact Or.inl (by simp [pathLe, h2])
        · exact Or.inr (by simp [pathLe, h2])
      · exact Or.inr (by simp [pathLe, h])

/-- The lexicographic path comparison is transitive. -/
theorem pathLe_trans (a b c : List String) (hab : pathLe a b = true)
    (hbc : pathLe b c = true) : pathLe a c = true := by
  induction a generalizing b c with
  | nil => rfl
  | cons x xs ih =>
    cases b with
    | nil => simp [pathLe] at hab
    | cons y ys =>
      cases c with
      | nil => simp [pathLe] at hbc
      | cons z zs =>
        rcases lt_trichotomy x y with hxy | hxy | hxy
        · rcases lt_trichotomy y z with hyz | hyz | hyz
          · simp [pathLe, lt_trans hxy hyz]
          · subst hyz; simp [pathLe, hxy]
          · simp [pathLe, asymm hyz, ne_of_gt hyz] at hbc
        · subst hxy
          simp only [pathLe, lt_irrefl, if_neg (lt_irrefl x), if_pos rfl] at hab
          rcases lt_trichotomy x z with hxz | hxz | hxz
          · simp [pathLe, hxz]
          · subst hxz
            simp only [pathLe, lt_irrefl, if_neg (lt_irrefl x), if_pos rfl] at hbc ⊢
            exact ih ys zs hab hbc
          · simp [pathLe, asymm hxz, ne_of_gt hxz] at hbc
        · simp [pathLe, asymm hxy, ne_of_gt hxy] at hab

instance : IsTotal JsonSchemaError errLe :=
  ⟨fun a b => pathLe_total a.path b.path⟩

instance : IsTrans JsonSchemaError errLe :=
  ⟨fun a b c => pathLe_trans a.path b.path c.path⟩

/-- Non-strict `validate_skill` raises iff the schema reports a violation —
the fact the registry loader relies on. -/
theorem validate_skill_nonstrict_error_iff (iter_errors : SkillData → List JsonSchemaError)
    (isSkillYml : Bool) (freshness : List ValidationWarning) (data : SkillData) :
    (∃ e, validate_skill iter_errors false isSkillYml freshness data = .error e) ↔
      iter_errors data ≠ [] := by
  unfold validate_skill
  by_cases h : (List.insertionSort errLe (iter_errors data)).isEmpty
  · have hnil : iter_errors data = [] := by
      have hp := (List.perm_insertionSort errLe (iter_errors data)).symm
      rw [List.isEmpty_iff.mp h] at hp
      exact hp.eq_nil
    simp [h, hnil]
  · have hne : iter_errors data ≠ [] := by
      intro h0
      rw [h0] at h
      exact h rfl
    simp [h, hne]

/-! ## Claims about the validator -/

/-- C6: when the schema reports any violation, `validate_skill` raises a
single `ValidationError` carrying every violation (a permutation of the full
list, so never only the first), sorted by field path, each message tagged
`[<path>] <message>`; and the result is computed before — independently of —
the cross-referential warning inputs and the strict flag. -/
theorem claim_C6_all_violations_collected_sorted
    (iter_errors : SkillData → List JsonSchemaError)
    (strict isSkillYml : Bool) (freshness : List ValidationWarning) (data : SkillData)
    (h : iter_errors data ≠ []) :
    ∃ es : List JsonSchemaError,
      validate_skill iter_errors strict isSkillYml freshness data =
        .error ⟨es.map _format_jsonschema_error⟩
      ∧ es.Perm (iter_errors data)
      ∧ es.Sorted errLe
      ∧ (∀ e ∈ es, _format_jsonschema_error e =
          "[" ++ (if e.path.isEmpty then "root" else String.intercalate " -> " e.path)
            ++ "] " ++ e.message)
      ∧ (∀ (strict2 isSkillYml2 : Bool) (freshness2 : List ValidationWarning),
          validate_skill iter_errors strict2 isSkillYml2 freshness2 data =
            validate_skill iter_errors strict isSkillYml freshness data) := by
  have hne : ¬ (List.insertionSort errLe (iter_errors data)).isEmpty := by
    intro h0
    apply h
    have hp := (List.perm_insertionSort errLe (iter_errors data)).symm
    rw [List.isEmpty_iff.mp h0] at hp
    exact hp.eq_nil
  refine ⟨List.insertionSort errLe (iter_errors data), ?_,
    List.perm_insertionSort errLe (iter_errors data),
    List.sorted_insertionSort errLe (iter_errors data),
    fun e _ => rfl, fun strict2 isSkillYml2 freshness2 => ?_⟩
  · unfold validate_skill
    simp [hne]
  · unfold validate_skill
    simp [hne]

/-- C6 witness: a schema stand-in reporting two violations in reverse path
order; the raised error carries both, sorted. -/
theorem claim_C6_all_violations_collected_sorted_witness :
    ∃ es : List JsonSchemaError,
      validate_skill twoViolations false true [] noMetadataDoc =
        .error ⟨es.map _format_jsonschema_error⟩
      ∧ es.Perm (twoViolations noMetadataDoc)
      ∧ es.Sorted errLe
      ∧ (∀ e ∈ es, _format_jsonschema_error e =
          "[" ++ (if e.path.isEmpty then "root" else String.intercalate " -> " e.path)
            ++ "] " ++ e.message)
      ∧ (∀ (strict2 isSkillYml2 : Bool) (freshness2 : List ValidationWarning),
          validate_skill twoViolations strict2 isSkillYml2 freshness2 noMetadataDoc =
            validate_skill twoViolations false true [] noMetadataDoc) :=
  claim_C6_all_violations_collected_sorted twoViolations false true [] noMetadataDoc
    (by simp [twoViolations])

/-- C7: on a structurally valid document with a workflow step whose (truthy)
activity id is absent from `approved_activities`, non-strict validation
returns a warning whose message carries both the effective step id and the
offending activity id, and strict validation raises `ValidationError`. -/
theorem claim_C7_unresolved_activity_warns_strict_raises
    (iter_errors : SkillData → List JsonSchemaError)
    (isSkillYml : Bool) (freshness : List ValidationWarning) (data : SkillData)
    (step : WorkflowStep) (a : String)
    (hstruct : iter_errors data = [])
    (hstep : step ∈ workflowSteps data)
    (hact : step.activity = some a) (hane : a ≠ "")
    (habs : a ∉ ((data.approved_activities).getD []).map ApprovedActivity.id) :
    (∃ ws, validate_skill iter_errors false isSkillYml freshness data = .ok ws
      ∧ (⟨"Workflow step \x27" ++ _step_id step ++ "\x27: activity \x27" ++ a
          ++ "\x27 not found in approved_activities"⟩ : ValidationWarning) ∈ ws
      ∧ (∃ p q, "Workflow step \x27" ++ _step_id step ++ "\x27: activity \x27" ++ a
          ++ "\x27 not found in approved_activities" = p ++ _step_id step ++ q)
      ∧ (∃ p q, "Workflow step \x27" ++ _step_id step ++ "\x27: activity \x27" ++ a
          ++ "\x27 not found in approved_activities" = p ++ a ++ q))
    ∧ (∃ err, validate_skill iter_errors true isSkillYml freshness data = .error err) := by
  have hgen : ∀ l : List String, a ∉ l → l.contains a = false := fun l h => by
    simpa using h
  have hcont : (((data.approved_activities).getD []).map ApprovedActivity.id).contains a
      = false := hgen _ habs
  have hcont2 : ¬ ((((data.approved_activities).getD []).map ApprovedActivity.id).contains a
      = true) := by
    rw [hcont]
    exact Bool.false_ne_true
  have hwarn : stepActivityWarning
      (((data.approved_activities).getD []).map ApprovedActivity.id) step
      = some ⟨"Workflow step \x27" ++ _step_id step ++ "\x27: activity \x27" ++ a
        ++ "\x27 not found in approved_activities"⟩ := by
    simp only [stepActivityWarning, hact, Option.getD_some]
    rw [if_neg hane, if_neg hcont2]
  have hmemw : (⟨"Workflow step \x27" ++ _step_id step ++ "\x27: activity \x27" ++ a
      ++ "\x27 not found in approved_activities"⟩ : ValidationWarning)
      ∈ _collect_warnings isSkillYml freshness data := by
    unfold _collect_warnings
    refine List.mem_append_left _ (List.mem_append_left _ (List.mem_append_right _ ?_))
    exact List.mem_filterMap.mpr ⟨step, hstep, hwarn⟩
  have hok : validate_skill iter_errors false isSkillYml freshness data =
      .ok (_collect_warnings isSkillYml freshness data) := by
    unfold validate_skill
    simp [hstruct, List.insertionSort]
  refine ⟨⟨_collect_warnings isSkillYml freshness data, hok, hmemw, ?_, ?_⟩, ?_⟩
  · exact ⟨"Workflow step \x27", "\x27: activity \x27" ++ a
      ++ "\x27 not found in approved_activities", by simp [String.append_assoc]⟩
  · exact ⟨"Workflow step \x27" ++ _step_id step ++ "\x27: activity \x27",
      "\x27 not found in approved_activities", by simp [String.append_assoc]⟩
  · have hne2 : (_collect_warnings isSkillYml freshness data).isEmpty = false := by
      cases hcw : _collect_warnings isSkillYml freshness data with
      | nil => rw [hcw] at hmemw; cases hmemw
      | cons w ws => rfl
    refine ⟨⟨(_collect_warnings isSkillYml freshness data).map ValidationWarning.message⟩, ?_⟩
    unfold validate_skill
    simp [hstruct, List.insertionSort, hne2]

/-- C7 witness: the fixture document whose step `offer-step` references the
unapproved activity `send-loan-offer`. -/
theorem claim_C7_unresolved_activity_warns_strict_raises_witness :
    (∃ ws, validate_skill (fun _ => []) false true [] sendOfferDoc = .ok ws
      ∧ (⟨"Workflow step \x27" ++ _step_id ⟨some "offer-step", some "send-loan-offer", none⟩
          ++ "\x27: activity \x27" ++ "send-loan-offer"
          ++ "\x27 not found in approved_activities"⟩ : ValidationWarning) ∈ ws
      ∧ (∃ p q, "Workflow step \x27" ++ _step_id ⟨some "offer-step", some "send-loan-offer", none⟩
          ++ "\x27: activity \x27" ++ "send-loan-offer"
          ++ "\x27 not found in approved_activities"
            = p ++ _step_id ⟨some "offer-step", some "send-loan-offer", none⟩ ++ q)
      ∧ (∃ p q, "Workflow step \x27" ++ _step_id ⟨some "offer-step", some "send-loan-offer", none⟩
          ++ "\x27: activity \x27" ++ "send-loan-offer"
          ++ "\x27 not found in approved_activities" = p ++ "send-loan-offer" ++ q))
    ∧ (∃ err, validate_skill (fun _ => []) true true [] sendOfferDoc = .error err) :=
  claim_C7_unresolved_activity_warns_strict_raises (fun _ => []) true [] sendOfferDoc
    ⟨some "offer-step", some "send-loan-offer", none⟩ "send-loan-offer"
    rfl (by decide) rfl (by decide) (by decide)

/-! ## Claims about registry loading -/

/-- Lookup after a Python dict assignment. -/
theorem dictLookup_dictInsert {α : Type} (m : List (String × α)) (k k2 : String) (v : α) :
    dictLookup (dictInsert m k v) k2 = if k = k2 then some v else dictLookup m k2 := by
  induction m with
  | nil => simp [dictInsert, dictLookup]
  | cons kv rest ih =>
    obtain ⟨k0, v0⟩ := kv
    by_cases h : k0 = k
    · subst h
      by_cases hk : k0 = k2 <;> simp [dictInsert, dictLookup, hk]
    · by_cases hk : k0 = k2
      · subst hk
        have hne : ¬ k = k0 := fun hh => h hh.symm
        simp [dictInsert, dictLookup, h, hne]
      · simp [dictInsert, dictLookup, h, hk, ih]

/-- Characterisation of the loader fold: an id is present in the cache after
loading iff it was present initially or some store document parses, passes
the schema, and carries that id. -/
theorem load_foldl_lookup_isSome (iter_errors : SkillData → List JsonSchemaError)
    (store : List FileContent) (init : List (String × SkillData)) (i : String) :
    (dictLookup (store.foldl (_load_skill_file iter_errors) init) i).isSome = true ↔
      (dictLookup init i).isSome = true ∨
        ∃ d, FileContent.parsed d ∈ store ∧ iter_errors d = [] ∧
          (d.metadata).bind Metadata.id = some i := by
  induction store generalizing init with
  | nil => simp
  | cons f rest ih =>
    rw [List.foldl_cons, ih]
    cases f with
    | parseError => simp [_load_skill_file]
    | parsed d =>
      by_cases hval : (iter_errors d).isEmpty
      · have hnil : iter_errors d = [] := List.isEmpty_iff.mp hval
        cases hid : (d.metadata).bind Metadata.id with
        | none =>
          simp only [_load_skill_file, hval, Bool.not_true, Bool.false_eq_true, if_false, hid,
            List.mem_cons]
          constructor
          · rintro (h | ⟨d2, hd2, he, hi⟩)
            · exact Or.inl h
            · exact Or.inr ⟨d2, Or.inr hd2, he, hi⟩
          · rintro (h | ⟨d2, hd2 | hd2, he, hi⟩)
            · exact Or.inl h
            · cases hd2
              rw [hid] at hi
              cases hi
            · exact Or.inr ⟨d2, hd2, he, hi⟩
        | some j =>
          simp only [_load_skill_file, hval, Bool.not_true, Bool.false_eq_true, if_false, hid,
            dictLookup_dictInsert, List.mem_cons]
          by_cases hj : j = i
          · subst hj
            rw [if_pos rfl]
            constructor
            · intro _
              exact Or.inr ⟨d, Or.inl rfl, hnil, hid⟩
            · intro _
              exact Or.inl rfl
          · rw [if_neg hj]
            constructor
            · rintro (h | ⟨d2, hd2, he, hi⟩)
              · exact Or.inl h
              · exact Or.inr ⟨d2, Or.inr hd2, he, hi⟩
            · rintro (h | ⟨d2, hd2 | hd2, he, hi⟩)
              · exact Or.inl h
              · cases hd2
                rw [hid] at hi
                exact absurd (Option.some.inj hi) hj
              · exact Or.inr ⟨d2, hd2, he, hi⟩
      · have hne : iter_errors d ≠ [] := fun h0 => hval (by rw [h0]; rfl)
        simp only [_load_skill_file, hval, Bool.not_false, if_true, List.mem_cons]
        constructor
        · rintro (h | ⟨d2, hd2, he, hi⟩)
          · exact Or.inl h
          · exact Or.inr ⟨d2, Or.inr hd2, he, hi⟩
        · rintro (h | ⟨d2, hd2 | hd2, he, hi⟩)
          · exact Or.inl h
          · cases hd2
            exact absurd he hne
          · exact Or.inr ⟨d2, hd2, he, hi⟩

/-- C5: a document that fails structural validation is skipped: loading the
store is a total fold that never raises, the failing document's id is not in
the queryable set (`contains` is `false` and `get_skill` raises
`SkillNotFoundError`), and every other document that parses and passes the
schema still loads.  (The uniqueness hypothesis reflects the spec's globally
unique ids: no *valid* store document carries the failing document's id.) -/
theorem claim_C5_invalid_document_excluded_others_load
    (iter_errors : SkillData → List JsonSchemaError)
    (store : List FileContent) (bad : SkillData) (i : String)
    (hmem : FileContent.parsed bad ∈ store)
    (hfail : iter_errors bad ≠ [])
    (hid : (bad.metadata).bind Metadata.id = some i)
    (huniq : ∀ d, FileContent.parsed d ∈ store → iter_errors d = [] →
      (d.metadata).bind Metadata.id ≠ some i) :
    (SkillRegistry.load iter_errors store).containsSkill i = false
    ∧ (SkillRegistry.load iter_errors store).get_skill i none =
        .error (.SkillNotFoundError i)
    ∧ ∀ d j, FileContent.parsed d ∈ store → iter_errors d = [] →
        (d.metadata).bind Metadata.id = some j →
        (SkillRegistry.load iter_errors store).containsSkill j = true := by
  have hmain : ∀ j : String,
      (dictLookup (store.foldl (_load_skill_file iter_errors) []) j).isSome = true ↔
        ∃ d, FileContent.parsed d ∈ store ∧ iter_errors d = [] ∧
          (d.metadata).bind Metadata.id = some j := by
    intro j
    rw [load_foldl_lookup_isSome]
    simp [dictLookup]
  have habsent : (dictLookup (store.foldl (_load_skill_file iter_errors) []) i).isSome = false := by
    rw [Bool.eq_false_iff]
    intro hsome
    obtain ⟨d, hd, he, hi⟩ := (hmain i).mp hsome
    exact huniq d hd he hi
  have hnone : dictLookup (store.foldl (_load_skill_file iter_errors) []) i = none :=
    Option.not_isSome_iff_eq_none.mp (by rw [habsent]; exact Bool.false_ne_true)
  refine ⟨habsent, ?_, ?_⟩
  · unfold SkillRegistry.get_skill SkillRegistry.load
    rw [hnone]
  · intro d j hd he hj
    exact (hmain j).mpr ⟨d, hd, he, hj⟩

/-- C5 witness: in the three-file demo store, the schema-invalid `badDoc`
never becomes queryable while the valid document still loads; the parse-error
file stops nothing. -/
theorem claim_C5_invalid_document_excluded_others_load_witness :
    (SkillRegistry.load demoIterErrors demoStore).containsSkill "test_area/bad-skill" = false
    ∧ (SkillRegistry.load demoIterErrors demoStore).get_skill "test_area/bad-skill" none =
        .error (.SkillNotFoundError "test_area/bad-skill")
    ∧ (SkillRegistry.load demoIterErrors demoStore).containsSkill "test_area/test-skill" = true := by
  have huniq : ∀ d, FileContent.parsed d ∈ demoStore → demoIterErrors d = [] →
      (d.metadata).bind Metadata.id ≠ some "test_area/bad-skill" := by
    intro d hd he hcontra
    simp only [demoStore, List.mem_cons, List.not_mem_nil, or_false] at hd
    rcases hd with h | h | h
    · injection h with h1
      subst h1
      exact absurd he (by decide)
    · injection h with h1
      subst h1
      exact absurd hcontra (by decide)
    · exact FileContent.noConfusion h
  have h := claim_C5_invalid_document_excluded_others_load demoIterErrors demoStore badDoc
    "test_area/bad-skill" (by decide) (by decide) (by decide) huniq
  exact ⟨h.1, h.2.1, h.2.2 approvedDoc "test_area/test-skill" (by decide) (by decide) (by decide)⟩

/-! ## Claims about the runtime activity allowlist -/

/-- C4 counterexample: the runtime guard script (`validate_activity.py`)
checks workflow-step membership, not the activity allowlist.  On the fixture
document, step `offer-step` invokes activity `send-loan-offer`, which is
absent from `approved_activities`, yet the guard reports
`allowed (exit code 0)` — no error of any kind is raised at the invocation
attempt, refuting the claim as stated. -/
theorem claim_C4_counterexample_validate_activity_allows_unapproved :
    (⟨some "offer-step", some "send-loan-offer", none⟩ : WorkflowStep) ∈ workflowSteps sendOfferDoc
    ∧ (⟨some "offer-step", some "send-loan-offer", none⟩ : WorkflowStep).activity
        = some "send-loan-offer"
    ∧ "send-loan-offer" ∉ ((sendOfferDoc.approved_activities).getD []).map ApprovedActivity.id
    ∧ validate_activity_main sendOfferDoc "offer-step" = some (true, 0) := by
  decide

/-- C4 (amended): registering an activity id absent from the skill allowlist
through `WorkflowRunner.register` fails at the moment of the attempt with the
allowlist-violation `ValueError` carrying the activity and skill ids, and the
outcome is independent of the workflow steps — it fails even if no workflow
step references that activity. -/
theorem claim_C4_register_rejects_unapproved_activity {F : Type}
    (r : WorkflowRunner F) (activity : String) (fn : F)
    (h : activity ∉ r.approved) :
    r.register activity fn =
      .error ("Cannot register \x27" ++ activity
        ++ "\x27: not in approved_activities for skill \x27" ++ r.skill_id ++ "\x27")
    ∧ ∀ steps2 : List WorkflowStep,
      (WorkflowRunner.mk r.skill_id r.approved steps2 r.activity_registry).register activity fn =
        .error ("Cannot register \x27" ++ activity
          ++ "\x27: not in approved_activities for skill \x27" ++ r.skill_id ++ "\x27") := by
  have hc : r.approved.contains activity = false := by simpa using h
  constructor
  · unfold WorkflowRunner.register
    rw [hc]
    rfl
  · intro steps2
    unfold WorkflowRunner.register
    rw [show (WorkflowRunner.mk r.skill_id r.approved steps2 r.activity_registry).approved
        = r.approved from rfl, hc]
    rfl

/-- C4 witness: the demo runner refuses to register an activity outside its
allowlist, whatever its workflow block says. -/
theorem claim_C4_register_rejects_unapproved_activity_witness :
    demoRunner.register "Access the applicant transaction history" () =
      .error ("Cannot register \x27" ++ "Access the applicant transaction history"
        ++ "\x27: not in approved_activities for skill \x27"
        ++ demoRunner.skill_id ++ "\x27") :=
  (claim_C4_register_rejects_unapproved_activity demoRunner
    "Access the applicant transaction history" () (by decide)).1

/-! ## Claim about the renderer -/

/-- C8: `render_skill_md` is a pure function of the document alone — it is
modelled as a total Lean function with no state, so two renders of identical
document data are byte-identical and the result depends on nothing else. -/
theorem claim_C8_render_deterministic (d₁ d₂ : SkillData) (h : d₁ = d₂) :
    render_skill_md d₁ = render_skill_md d₂ := by
  rw [h]

/-- C8 witness: rendering the fixture document twice gives the same string. -/
theorem claim_C8_render_deterministic_witness :
    render_skill_md sendOfferDoc = render_skill_md sendOfferDoc :=
  claim_C8_render_deterministic sendOfferDoc sendOfferDoc rfl
